import Mathlib

/-
Shallow embedding of the swagger document generator of the mystore
repository (rest_framework_swagger: yamlparser.py, introspectors.py,
docgenerator.py, config.py, views.py), together with theorems settling
the specification claims about it.

Modelling conventions:
  - Python dicts whose keys matter are association lists; an absent key is
    modelled by Option none.  Insertion keeps the position of an existing
    key, as Python dict/OrderedDict assignment does.
  - The code base is Python 2 (six, iteritems, dict-keys indexing), so
    built-in filter returns a list and an empty list is falsy; the model
    follows those semantics where the source relies on them.
  - Dynamic class loading (load_class, pytype, view_mocker) is outside a
    shallow embedding: serializer references appear in the model already
    resolved to canonical serializer names (get_serializer_name output),
    and a World maps serializer names to their field declarations.
  - Free-text docstring processing (summaries, descriptions, markdown) is
    carried as plain strings; it has no bearing on any claim.
  - Exceptions are modelled with Except String; an exception aborts the
    build exactly as an uncaught Python exception would.
-/

namespace MyStore

/-- Python dict assignment d[k] = v: replaces the value of an existing key
in place, otherwise appends the new pair. -/
def dictSet [DecidableEq κ] (d : List (κ × α)) (k : κ) (v : α) : List (κ × α) :=
  if d.any (fun kv => decide (kv.1 = k)) then
    d.map (fun kv => if kv.1 = k then (k, v) else kv)
  else d ++ [(k, v)]

/-- Python dict.update(e): assigns every pair of e into d in order. -/
def dictUpdateAll [DecidableEq κ] (d e : List (κ × α)) : List (κ × α) :=
  e.foldl (fun acc kv => dictSet acc kv.1 kv.2) d

/-- Python set.add for a set of strings (insertion order kept). -/
def setAddStr (s : List String) (x : String) : List String :=
  if s.contains x then s else s ++ [x]

/-- Lookup in an association list keyed by strings. -/
def lookupStr (d : List (String × α)) (k : String) : Option α :=
  (d.find? (fun kv => decide (kv.1 = k))).map Prod.snd

/- ===== constants.py ===== -/

/-- INTROSPECTOR_ENUMS from constants.py. -/
def INTROSPECTOR_ENUMS : List String := ["choice", "multiple choice"]

/-- INTROSPECTOR_PRIMITIVES from constants.py. -/
def INTROSPECTOR_PRIMITIVES : List (String × List String) :=
  [("integer", ["int32", "int64"]),
   ("number", ["float", "double"]),
   ("string", ["string", "byte", "date", "date-time"]),
   ("boolean", ["boolean"])]

/-- Flattened list of all primitive formats (utils.normalize_data_format). -/
def flattenPrimitives : List String :=
  INTROSPECTOR_PRIMITIVES.foldl (fun acc p => acc ++ p.2) []

/- ===== utils.py ===== -/

/-- utils.normalize_data_format: returns the normalized (type, format)
pair; a format of none models deleting the format key. -/
def normalizeDataFormat (dataType : String) (fmt0 : Option String) : String × Option String :=
  let fmt1 := if dataType = "array" then none else fmt0
  let inPrims := match fmt1 with
    | some f => flattenPrimitives.contains f
    | none => false
  let fmt2 :=
    if inPrims then fmt1
    else match lookupStr INTROSPECTOR_PRIMITIVES dataType with
      | some formats => formats.head?
      | none => none
  let fmt3 := if fmt2 = some dataType then none else fmt2
  (dataType, fmt3)

/-- Python str.lower over the characters (method names are ASCII). -/
def strToLower (s : String) : String := ⟨s.data.map Char.toLower⟩

/-- Python str.startswith, by characters. -/
def charsStartWith : List Char → List Char → Bool
  | [], _ => true
  | _ :: _, [] => false
  | c :: cs, d :: ds => c == d && charsStartWith cs ds

/-- Python str.startswith, prefix first. -/
def strStartsWith (pre s : String) : Bool := charsStartWith pre.data s.data

/-- Lexicographic string order by code point, as Python compares str. -/
def charsLe : List Char → List Char → Bool
  | [], _ => true
  | _ :: _, [] => false
  | c :: cs, d :: ds => if c = d then charsLe cs ds else decide (c < d)

/-- Lexicographic string order by code point. -/
def strLe (a b : String) : Bool := charsLe a.data b.data

/-- utils.extract_base_path: strips base_path from the front of path. -/
def extractBasePath (path basePath : String) : String :=
  if strStartsWith basePath path then (path.drop basePath.length) else path

/- ===== parameter objects ===== -/

/-- A swagger parameter object as the generator assembles it.  Every
field of type Option models presence or absence of the dict key. -/
structure Param where
  name : Option String := none
  location : String := "formData"
  description : Option String := none
  required : Option Bool := none
  type : Option String := none
  format : Option String := none
  defaultValue : Option String := none
  enum : List String := []
  minimum : Option String := none
  maximum : Option String := none
  itemsType : Option String := none
  itemsFormat : Option String := none
  uniqueItems : Option Bool := none
  collectionFormat : Option String := none
  schemaRef : Option String := none
deriving DecidableEq, Repr

/-- One raw entry of the docstring override key parameters, before
YAMLDocstringParser.get_yaml_parameters normalizes it.  The location
field models the raw in key.  The pytype key (dynamic class loading)
is not modelled; no claim exercises it. -/
structure RawField where
  name : Option String := none
  location : Option String := none
  type : Option String := none
  format : Option String := none
  required : Option Bool := none
  description : Option String := none
  defaultValue : Option String := none
  collectionFormat : Option String := none
  itemsType : Option String := none
  uniqueItems : Option Bool := none
  minimum : Option Int := none
  maximum : Option Int := none
  enum : List String := []
deriving DecidableEq, Repr

/-- The value of the parameters_strategy override key: either a plain
string or a mapping from parameter location to strategy. -/
inductive StrategyVal where
  | strVal (s : String)
  | mapVal (m : List (String × String))
deriving DecidableEq, Repr

/-- The value of the security override key. -/
inductive SecuritySpec where
  | publicAccess
  | requirements (refs : List String)
deriving DecidableEq, Repr

/-- One entry of the responseMessages override key. -/
structure RawMessage where
  code : Option Int := none
  description : Option String := none
  schema : Option String := none
deriving DecidableEq, Repr

/-- The parsed YAML override object of one method (class-level and
method-level objects already merged by get_yaml_parser), together with
the parser's yaml_error attribute.  Keys resolved upstream by dynamic
class loading (serializer, request_serializer, response_serializer,
omit_serializer, type, view_mocker) are carried on the introspector
model instead. -/
structure DocObject where
  parameters : List RawField := []
  parametersStrategy : Option StrategyVal := none
  omitParameters : List String := []
  forcePagination : Bool := false
  swaggerConfigName : Option String := none
  security : Option SecuritySpec := none
  responseMessages : List RawMessage := []
  operationId : Option String := none
  produces : Option (List String) := none
  tags : List String := []
  yamlError : Option String := none
deriving DecidableEq, Repr

/- ===== yamlparser.py ===== -/

/-- YAMLDocstringParser.PARAM_TYPES. -/
def PARAM_TYPES : List String := ["header", "path", "formData", "body", "query"]

/-- Normalization of one raw docstring parameter entry, mirroring the
body of the loop in YAMLDocstringParser.get_yaml_parameters. -/
def yamlParamOf (field : RawField) : Param :=
  let paramType := match field.location with
    | some l => if PARAM_TYPES.contains l then l else "formData"
    | none => "formData"
  let dataType := field.type.getD "string"
  let dataFormat := field.format
  let f0 : Param := { location := paramType, name := field.name,
                      description := some (field.description.getD ""),
                      required := some (field.required.getD false) }
  let tf := normalizeDataFormat dataType dataFormat
  let f1 := { f0 with type := some tf.1, format := tf.2 }
  let f2 := match field.collectionFormat with
    | some c => { f1 with collectionFormat := some c }
    | none => f1
  let f3 := match field.defaultValue with
    | some d => { f2 with defaultValue := some d }
    | none => f2
  let f4 :=
    if f3.type = some "array" then
      let eltType := field.itemsType.getD "string"
      -- the source reads the items type key a second time for the format
      let eltFormat := field.itemsType.getD "format"
      let itf := normalizeDataFormat eltType (some eltFormat)
      let fa := { f3 with itemsType := some itf.1, itemsFormat := itf.2 }
      match field.uniqueItems with
      | some u => { fa with uniqueItems := some u }
      | none => fa
    else f3
  let f5 := match field.minimum with
    | some v => if dataType = "integer" then { f4 with minimum := some (toString v) } else f4
    | none => f4
  let f6 := match field.maximum with
    | some v => if dataType = "integer" then { f5 with maximum := some (toString v) } else f5
    | none => f5
  let f7 := if field.enum.isEmpty then f6 else { f6 with enum := field.enum }
  if f7.type = some "file" then { f7 with location := "body" } else f7

/-- YAMLDocstringParser.get_yaml_parameters over the parameters key. -/
def getYamlParameters (fields : List RawField) : List Param :=
  fields.map yamlParamOf

/-- YAMLDocstringParser.get_yaml_security_definition. -/
def getYamlSecurityDefinition (obj : DocObject) : Option (List String) :=
  match obj.security with
  | none => none
  | some .publicAccess => some []
  | some (.requirements []) => none
  | some (.requirements l) => some l

/-- YAMLDocstringParser.get_parameters_strategy.  A mapping value with no
param_type, or an unrecognized string, falls back to merge. -/
def getParametersStrategy (obj : DocObject) (paramType : Option String) : String :=
  match obj.parametersStrategy with
  | none => "merge"
  | some (.strVal s) => if s = "merge" ∨ s = "replace" then s else "merge"
  | some (.mapVal m) =>
    match paramType with
    | none => "merge"
    | some pt =>
      let s := (lookupStr m pt).getD "merge"
      if s = "merge" ∨ s = "replace" then s else "merge"

/-- YAMLDocstringParser.filter_params restricted to the in key (the only
key the source passes); Python 2 filter returns a list. -/
def filterParams (params : List Param) (val : String) : List Param :=
  params.filter (fun p => decide (p.location = val))

/-- YAMLDocstringParser.merge_params: chains both lists into an ordered
dict keyed by name (an existing key keeps its position, later values
overwrite) and returns the values. -/
def mergeParams (params1 params2 : List Param) : List Param :=
  ((params1 ++ params2).foldl (fun acc item => dictSet acc item.name item) []).map Prod.snd

/-- YAMLDocstringParser.apply_strategy.  Note the Python 2 or-fallback on
the replace branch: an empty declared list keeps the reflected one. -/
def applyStrategy (obj : DocObject) (paramType : String)
    (methodParams docstringParams : List Param) : List Param :=
  let strategy := getParametersStrategy obj (some paramType)
  let mp := filterParams methodParams paramType
  let dp := filterParams docstringParams paramType
  if strategy = "replace" then (if dp.isEmpty then mp else dp)
  else if strategy = "merge" then mergeParams mp dp
  else []

/-- The location-overwrite preamble of discover_parameters: every method
parameter takes the in value of the last declared parameter with the
same name (declared parameters always carry an in key after
get_yaml_parameters). -/
def overwriteLocations (methodParams docstringParams : List Param) : List Param :=
  methodParams.map (fun mp =>
    docstringParams.foldl
      (fun acc dp => if dp.name = acc.name then { acc with location := dp.location } else acc)
      mp)

/- ===== introspectors.py ===== -/

/-- A handler's pagination_class attribute: the page / page-size query
parameter names it declares. -/
structure Paginator where
  pageQueryParam : Option String := none
  pageSizeQueryParam : Option String := none
deriving DecidableEq, Repr

/-- One django_filters filter of the handler's filter_class: its name,
label and fixed choice set (pairs of key and display value). -/
structure FilterField where
  name : String
  label : Option String := none
  choices : List (String × String) := []
deriving DecidableEq, Repr

/-- One method introspector (BaseMethodIntrospector): the reflected facts
the document generator reads from it.  Serializer references are carried
already resolved to canonical names (get_serializer_name output) because
their resolution is dynamic class loading; queryParams carries the
build_query_parameters output (docstring name-dash-dash-description
lines); docObject is the merged class and method override object the
introspector's get_yaml_parser returns. -/
structure MethodIntrospector where
  httpMethod : String
  action : String := ""
  summaryText : String := ""
  descriptionText : String := ""
  requestSerializer : Option String := none
  responseSerializer : Option String := none
  extraSerializers : List String := []
  paginationClass : Option Paginator := none
  queryParams : List Param := []
  filterFields : List FilterField := []
  docObject : DocObject := {}
deriving DecidableEq, Repr

/-- One routed endpoint: its normalized path template and the method
introspectors its view introspector yields. -/
structure Endpoint where
  path : String
  methods : List MethodIntrospector
deriving DecidableEq, Repr

/-- BaseMethodIntrospector.build_query_parameters_from_django_filters. -/
def buildFilterParams (fields : List FilterField) : List Param :=
  fields.map (fun ff =>
    let p : Param := { location := "query", name := some ff.name, description := ff.label }
    let tf := normalizeDataFormat "string" none
    let p := { p with type := some tf.1, format := tf.2 }
    if ff.choices.isEmpty then p else { p with enum := ff.choices.map Prod.fst })

/-- BaseMethodIntrospector.build_pagination_parameters; none models the
None returned when the view has no paginator. -/
def buildPaginationParameters (paginator : Option Paginator) : Option (List Param) :=
  match paginator with
  | none => none
  | some pg =>
    let params : List Param :=
      [{ location := "query", name := pg.pageQueryParam,
         description := some "Page Number", type := some "integer" }]
    match pg.pageSizeQueryParam with
    | some size =>
      some (params ++ [{ location := "query", name := some size,
                         description := some "Page Size", type := some "integer" }])
    | none => some params

/-- BaseMethodIntrospector.get_parameters: query parameters (docstring
conventions plus filters) and, on GET, pagination parameters. -/
def getParameters (mi : MethodIntrospector) : List Param :=
  let queryParams := mi.queryParams ++ buildFilterParams mi.filterFields
  let paginationParams := buildPaginationParameters mi.paginationClass
  let params := if queryParams.isEmpty then [] else queryParams
  match paginationParams with
  | some pp => if mi.httpMethod = "GET" then params ++ pp else params
  | none => params

/-- The swagger definitions reference for a serializer name. -/
def defRef (n : String) : String := "#/definitions/" ++ n

/-- BaseMethodIntrospector.build_body_parameters: none when there is no
request serializer (the source returns None then). -/
def buildBodyParameters (mi : MethodIntrospector) : Option Param :=
  match mi.requestSerializer with
  | none => none
  | some n => some { name := some n, location := "body", schemaRef := some (defRef n) }

/-- The fuelled scanner behind build_path_parameters: the matches of the
pattern slash-brace-name-brace, in order.  readParamName takes the chars
of one name up to the closing brace. -/
def readParamName (acc : List Char) : List Char → Option (String × List Char)
  | [] => none
  | c :: rest => if c = '}' then some (⟨acc.reverse⟩, rest) else readParamName (c :: acc) rest

/-- Scanner for the path template placeholders; the fuel is the string
length, which bounds the number of consumed characters. -/
def extractPathParamsGo : Nat → List Char → List String
  | 0, _ => []
  | Nat.succ fuel, chars =>
    match chars with
    | '/' :: '{' :: rest =>
      match readParamName [] rest with
      | some (nm, tail) => nm :: extractPathParamsGo fuel tail
      | none => []
    | _ :: rest => extractPathParamsGo fuel rest
    | [] => []

/-- The placeholder names of a path template. -/
def extractPathParams (path : String) : List String :=
  extractPathParamsGo path.length path.data

/-- BaseMethodIntrospector.build_path_parameters. -/
def buildPathParameters (path : String) : List Param :=
  (extractPathParams path).map (fun p =>
    { name := some p, type := some "string", location := "path", required := some true })

/-- YAMLDocstringParser.discover_parameters: normalizes the declared
parameters, lets declared entries move a reflected parameter's location,
resolves per location under the omit list and the strategy, and forces
non-path parameters of PATCH operations to not-required. -/
def discoverParameters (obj : DocObject) (mi : MethodIntrospector) : List Param :=
  let docstringParams := getYamlParameters obj.parameters
  let methodParams := getParameters mi
  let methodParams := overwriteLocations methodParams docstringParams
  let parameters := PARAM_TYPES.foldl (fun acc pt =>
      if obj.omitParameters.contains pt then acc
      else acc ++ applyStrategy obj pt methodParams docstringParams) []
  if mi.httpMethod = "PATCH" then
    parameters.map (fun p => if p.location = "path" then p else { p with required := some false })
  else parameters

/- ===== serializer discovery and definitions (docgenerator.py) ===== -/

/-- The shape of a DRF field, as the isinstance dispatch of
introspectors.get_data_type distinguishes them. -/
inductive FieldKind where
  | booleanField
  | jsonField
  | modelField
  | dictField
  | listFieldNone
  | listFieldOf (child : FieldKind)
  | nullBooleanField
  | choiceField (integerChoices : Bool)
  | dateField
  | dateTimeField
  | integerField
  | floatField
  | hiddenField
  | other
deriving DecidableEq, Repr

/-- introspectors.get_data_type: the (type, format) pair per field shape;
unmatched shapes fall through to string. -/
def getDataType : FieldKind → String × String
  | .booleanField => ("boolean", "boolean")
  | .jsonField => ("object", "object")
  | .modelField => ("object", "object")
  | .dictField => ("object", "object")
  | .listFieldNone => ("array", "array")
  | .listFieldOf _ => ("array", "array")
  | .nullBooleanField => ("boolean", "boolean")
  | .choiceField integerChoices =>
    if integerChoices then ("integer", "int64") else ("string", "string")
  | .dateField => ("string", "date")
  | .dateTimeField => ("string", "date-time")
  | .integerField => ("integer", "int64")
  | .floatField => ("number", "float")
  | .hiddenField => ("hidden", "hidden")
  | .other => ("string", "string")

/-- One serializer field as a World declares it.  A nested serializer
field (itself a BaseSerializer, or a ListSerializer around one) carries
the nested serializer's canonical name; hasMany marks ListSerializer and
ManyRelatedField shapes.  Plain nested serializer fields use kind other,
matching the get_data_type fallthrough. -/
structure SField where
  kind : FieldKind := .other
  writeOnly : Bool := false
  readOnly : Bool := false
  required : Bool := false
  helpText : String := ""
  defaultValue : Option String := none
  maxValue : Option Int := none
  minValue : Option Int := none
  choices : List String := []
  nestedSerializer : Option String := none
  hasMany : Bool := false
deriving DecidableEq, Repr

/-- One serializer class: its ordered field map and the optional Meta
attributes the generator reads (child for array-shaped serializers, the
in marker for body serializers). -/
structure SerializerDef where
  fields : List (String × SField) := []
  metaChild : Option String := none
  metaIn : Option String := none
deriving DecidableEq, Repr

/-- The universe of serializer classes, keyed by canonical name. -/
abbrev World := List (String × SerializerDef)

/-- Lookup of a serializer class by canonical name. -/
def lookupSerializer (w : World) (name : String) : Option SerializerDef :=
  lookupStr w name

/-- The items value of a swagger field schema. -/
inductive ItemsOut where
  | refItem (target : String)
  | typeItem (t : String)
deriving DecidableEq, Repr

/-- One property of a synthesized type definition, as
DocumentationGenerator.get_serializer_fields emits it; Option fields
model deleted or never-written keys. -/
structure FieldOut where
  description : String := ""
  type : Option String := none
  format : Option String := none
  defaultValue : Option String := none
  readOnly : Bool := false
  minimum : Option Int := none
  maximum : Option Int := none
  enum : List String := []
  ref : Option String := none
  items : Option ItemsOut := none
deriving DecidableEq, Repr

/-- The record get_serializer_fields accumulates per serializer. -/
structure FieldsData where
  fields : List (String × FieldOut) := []
  required : List String := []
  writeOnly : List String := []
  readOnly : List String := []
deriving DecidableEq, Repr

/-- The plain part of the swagger field schema built inside the
get_serializer_fields loop, before the nested and list branches:
description, type and format, default, readOnly, the (max-guarded)
bounds and the enum options. -/
def fieldOutBase (field : SField) : FieldOut :=
  let tf := getDataType field.kind
  let dataType := tf.1
  -- not description or description.strip() == '': all-whitespace help text
  let description := if field.helpText.data.all (fun c => c.isWhitespace) then "" else field.helpText
  let f : FieldOut := { description := description, type := some dataType,
                        format := some tf.2, defaultValue := field.defaultValue,
                        readOnly := field.readOnly }
  let f := if f.type = f.format then { f with format := none } else f
  -- the source guards the minimum assignment with max_value as well
  let f := if field.maxValue.isSome ∧ dataType = "integer" then { f with minimum := field.minValue } else f
  let f := if field.maxValue.isSome ∧ dataType = "integer" then { f with maximum := field.maxValue } else f
  if INTROSPECTOR_ENUMS.contains dataType then { f with enum := field.choices } else f

/-- The swagger field schema built for one non-hidden serializer field:
the plain part, then the nested-serializer and list branches; a
write-only nested serializer reference gets the Write name variant (the
is_documented escape hatch is not modelled; no claim exercises it). -/
def fieldOutOf (field : SField) : FieldOut :=
  let f := fieldOutBase field
  let hasMany := field.hasMany
  if field.nestedSerializer.isSome ∨ hasMany then
    match field.nestedSerializer with
    | some ns =>
      let fieldSerializer := if field.writeOnly then "Write" ++ ns else ns
      let f := if ¬ hasMany then { f with type := none, ref := some (defRef fieldSerializer) } else f
      if hasMany then { f with type := some "array", items := some (.refItem (defRef fieldSerializer)) } else f
    | none =>
      -- a many-related field without serializer: data_type falls back
      -- to string, which is a primitive, so items is a string type
      if hasMany then { f with type := some "array", items := some (.typeItem "string") } else f
  else
    match field.kind with
    | .listFieldNone =>
      -- get_data_type of a missing child also falls through to string
      { f with type := some "array", items := some (.typeItem "string") }
    | .listFieldOf child =>
      { f with type := some "array", items := some (.typeItem (getDataType child).1) }
    | _ => f

/-- One iteration of the get_serializer_fields loop: record the
write-only, read-only and required names, drop hidden fields, and append
the built field schema. -/
def serializerFieldStep (data : FieldsData) (nf : String × SField) : FieldsData :=
  let name := nf.1
  let field := nf.2
  let data := if field.writeOnly then { data with writeOnly := data.writeOnly ++ [name] } else data
  let data := if field.readOnly then { data with readOnly := data.readOnly ++ [name] } else data
  let data := if field.required then { data with required := data.required ++ [name] } else data
  if (getDataType field.kind).1 = "hidden" then data
  else { data with fields := data.fields ++ [(name, fieldOutOf field)] }

/-- DocumentationGenerator.get_serializer_fields. -/
def getSerializerFields (sd : SerializerDef) : FieldsData :=
  sd.fields.foldl serializerFieldStep {}

/-- A synthesized type definition.  An object definition with an empty
required list models the dict without the required key. -/
inductive Definition where
  | objectDef (properties : List (String × FieldOut)) (required : List String)
  | arrayDef (itemsRef : String)
deriving DecidableEq, Repr

/-- DocumentationGenerator.get_definition: write-only fields are filtered
out of the property map; a Meta.child serializer becomes an array
definition referencing the child. -/
def getDefinition (sd : SerializerDef) : Definition :=
  let data := getSerializerFields sd
  let properties := data.fields.filter (fun kv => ! data.writeOnly.contains kv.1)
  match sd.metaChild with
  | some child => .arrayDef (defRef child)
  | none =>
    let requiredProperties := (properties.map Prod.fst).filter (fun i => data.required.contains i)
    .objectDef properties requiredProperties

/- ===== find_field_serializers ===== -/

/-- A serializer field instance: the nested serializer's class name and
an identity stamp.  Every call to get_fields builds fresh field objects
(DRF deep-copies declared fields and defines no custom equality), so
Python's set membership on them is object identity; the model gives each
created instance a fresh stamp drawn from a counter. -/
abbrev Inst := String × Nat

/-- Python set.add over instance sets. -/
def setAddInst (s : List Inst) (i : Inst) : List Inst :=
  if s.contains i then s else s ++ [i]

/-- Python set.update over instance sets. -/
def setUnionInst (s t : List Inst) : List Inst :=
  t.foldl setAddInst s

/-- The nested serializer names among one serializer's fields, in
declaration order: what iterating get_fields and keeping the
BaseSerializer instances (a ListSerializer counting as its child)
yields. -/
def fieldTargets (sd : SerializerDef) : List String :=
  sd.fields.filterMap (fun nf => nf.2.nestedSerializer)

/-- The serializer-typed fields of one serializer class by name. -/
def nestedFieldsOf (w : World) (name : String) : List String :=
  match lookupSerializer w name with
  | some sd => fieldTargets sd
  | none => []

/-- The inner loop of DocumentationGenerator.find_field_serializers over
one serializer's serializer-typed fields: each field instance is added
to serializers_set and, unless it is in found_serializers, recursively
explored (through recur, the one-level-deeper recursive call) with the
current set passed as found_serializers; none models the RecursionError
a depth-exhausted recursion raises, which propagates. -/
def ffsTargetsF (w : World) (recur : List String → List Inst → Nat → Option (List Inst × Nat))
    (found : List Inst) : List String → List Inst → Nat → Option (List Inst × Nat)
  | [], set, ctr => some (set, ctr)
  | t :: rest, set, ctr =>
    let inst : Inst := (t, ctr)
    let set2 := setAddInst set inst
    if found.contains inst then ffsTargetsF w recur found rest set2 (ctr + 1)
    else
      match recur [t] set2 (ctr + 1) with
      | none => none
      | some sc => ffsTargetsF w recur found rest (setUnionInst set2 sc.1) sc.2

/-- The outer loop of find_field_serializers over the serializers
argument, accumulating serializers_set. -/
def ffsListF (w : World) (recur : List String → List Inst → Nat → Option (List Inst × Nat))
    (found : List Inst) : List String → List Inst → Nat → Option (List Inst × Nat)
  | [], set, ctr => some (set, ctr)
  | s :: rest, set, ctr =>
    match ffsTargetsF w recur found (nestedFieldsOf w s) set ctr with
    | none => none
    | some sc => ffsListF w recur found rest sc.1 sc.2

/-- DocumentationGenerator.find_field_serializers, fuelled by the
recursion depth budget (Python's recursion limit): each recursive call
into a nested serializer class consumes one level; returns the
discovered field instances and the final freshness counter, or none on
depth exhaustion (the RecursionError). -/
def findFieldSerializers (w : World) : Nat → List String → List Inst → Nat →
    Option (List Inst × Nat)
  | 0, _, _, _ => none
  | Nat.succ f, serializers, found, ctr =>
    ffsListF w (fun ss fnd c => findFieldSerializers w f ss fnd c) found serializers [] ctr

/-- One iteration of the models loop of get_definitions: the definition
of one discovered serializer (registering a Meta.child child serializer
beside its parent); a name absent from the world is skipped for
totality, a Python serializer class always existing. -/
def definitionEntry (w : World) (acc : List (String × Definition)) (name : String) :
    List (String × Definition) :=
  match lookupSerializer w name with
  | none => acc
  | some sd =>
    let acc := match sd.metaChild with
      | some child =>
        match lookupSerializer w child with
        | some csd => dictSet acc child (getDefinition csd)
        | none => acc
      | none => acc
    dictSet acc name (getDefinition sd)

/-- DocumentationGenerator.get_definitions: the serializer set from the
endpoints, the explicitly discovered body serializers, the closure of
field serializers, then one definition per name (a Meta.child child is
registered beside its parent) and finally the explicit response types;
the update with the always-empty fields_serializers set is a no-op.
A name absent from the world is skipped for totality; a Python
serializer class always exists, and the theorems assume as much. -/
def getDefinitions (w : World) (baseSerializers explicitSerializers : List String)
    (explicitResponseTypes : List (String × Definition)) (fuel : Nat) :
    Option (List (String × Definition)) :=
  let s0 := explicitSerializers.foldl setAddStr baseSerializers
  match findFieldSerializers w fuel s0 [] 0 with
  | none => none
  | some fi =>
    let names := s0 ++ fi.1.map Prod.fst
    let models := names.foldl (definitionEntry w) []
    some (dictUpdateAll models explicitResponseTypes)

/- ===== responses and operations (docgenerator.py) ===== -/

/-- One property of the pagination envelope (a readOnly flag, a type and
an empty description, as the literal dict in the source writes it). -/
structure EnvProp where
  readOnly : Bool
  type : String
  description : String
deriving DecidableEq, Repr

/-- A response schema: a definitions reference, a plain type, a schema
copied verbatim from a docstring responseMessages entry (carried
opaquely), or the pagination envelope object with its six properties. -/
inductive RespSchema where
  | ref (target : String)
  | typeOnly (t : String)
  | declared (raw : String)
  | envelope (next previous count results : EnvProp) (resultsItems : RespSchema) (page size : EnvProp)
deriving DecidableEq, Repr

/-- The pagination envelope literal of
DocumentationGenerator.get_operation_success_response. -/
def mkPaginationEnvelope (items : RespSchema) : RespSchema :=
  .envelope ⟨true, "string", ""⟩ ⟨true, "string", ""⟩ ⟨true, "integer", ""⟩
    ⟨true, "array", ""⟩ items ⟨true, "integer", ""⟩ ⟨true, "integer", ""⟩

/-- Whether a response schema is the pagination envelope object. -/
def isEnvelopeSchema : RespSchema → Bool
  | .envelope _ _ _ _ _ _ _ => true
  | _ => false

/-- One response object: a description and an optional schema. -/
structure RespBody where
  description : String
  schema : Option RespSchema := none
deriving DecidableEq, Repr

/-- Whether a response body carries the pagination envelope. -/
def isEnvelopeBody (b : RespBody) : Bool :=
  match b.schema with
  | some s => isEnvelopeSchema s
  | none => false

/-- DocumentationGenerator.get_operation_success_response.  DELETE
returns early with 204 and no schema; otherwise the response object is a
reference (concatenating with a missing serializer name is the Python
TypeError, modelled as an error) and the pagination envelope wraps it
when pagination is forced or the code is 200 and the view declares a
pagination class. -/
def getOperationSuccessResponse (obj : DocObject) (mi : MethodIntrospector) :
    Except String (String × RespBody) :=
  let responseSerializerName := mi.responseSerializer
  let operationMethod := strToLower mi.httpMethod
  if operationMethod = "delete" then .ok ("204", { description := "Deleted" })
  else
    let successCode := if operationMethod = "post" then "201" else "200"
    match responseSerializerName with
    | none => .error "TypeError"
    | some nm =>
      let responseObject : RespSchema := if nm ≠ "object" then .ref (defRef nm) else .typeOnly nm
      if obj.forcePagination ∨ (successCode = "200" ∧ mi.paginationClass.isSome) then
        .ok (successCode, { description := "Successful operation",
                            schema := some (mkPaginationEnvelope responseObject) })
      else
        .ok (successCode, { description := "Successful operation", schema := some responseObject })

/-- YAMLDocstringParser.get_response_messages: one entry per declared
message, keyed by the stringified code, later same-code entries
overwriting earlier ones. -/
def getResponseMessages (obj : DocObject) : List (String × RespBody) :=
  obj.responseMessages.foldl (fun acc m =>
    let key := match m.code with
      | some c => toString c
      | none => "None"
    let body : RespBody := { description := m.description.getD "",
                             schema := m.schema.map RespSchema.declared }
    dictSet acc key body) []

/-- One assembled operation.  The source pops the method key into the
path item; the model keeps it on the record. -/
structure Operation where
  method : String
  description : String
  summary : String
  operationId : Option String
  produces : List String
  tags : List String
  parameters : List Param
  security : Option (List String) := none
  responses : List (String × RespBody) := []
deriving DecidableEq, Repr

/-- The swagger configuration slice the generator reads. -/
structure Config where
  configName : Option String := none
  basePath : String := ""
  produces : List String := []
  defaultPayload : Option (String × Definition) := none
deriving DecidableEq, Repr

/-- Whether serializer.Meta.in is the body marker. -/
def metaInBody (w : World) (serializer : Option String) : Bool :=
  match serializer with
  | some n =>
    match lookupSerializer w n with
    | some sd => sd.metaIn == some "body"
    | none => false
  | none => false

/-- DocumentationGenerator.get_operation_parameters: on POST, PUT and
PATCH with a body-marked request serializer, the body parameter is
prepended and the serializer recorded among the explicitly discovered
serializers (second component); the discovered parameters follow. -/
def getOperationParameters (w : World) (mi : MethodIntrospector) (method : String) :
    List Param × List String :=
  let serializer := mi.requestSerializer
  let pe :=
    if (method = "POST" ∨ method = "PUT" ∨ method = "PATCH") ∧ metaInBody w serializer = true then
      ((buildBodyParameters mi).toList, serializer.toList)
    else ([], [])
  (pe.1 ++ discoverParameters mi.docObject mi, pe.2)

/-- The keys of the operation dict as get_operations builds it, in
assignment order; there is no notes key among them. -/
def opDictKeys (hasSecurity : Bool) : List String :=
  ["method", "description", "summary", "operationId", "produces", "tags", "parameters"]
    ++ (if hasSecurity then ["security"] else [])

/-- A Python dict lookup by key: a KeyError for an absent key. -/
def dictKeyLookup (keys : List String) (k : String) : Except String Unit :=
  if keys.contains k then .ok () else .error ("KeyError: " ++ k)

/-- DocumentationGenerator.get_method_introspectors: drops OPTIONS
method introspectors (the isinstance guard of the source always holds
in the model). -/
def getMethodIntrospectors (mis : List MethodIntrospector) : List MethodIntrospector :=
  mis.filter (fun mi => ! (mi.httpMethod == "OPTIONS"))

/-- Whether the operation is restricted to a different configuration
name (the swagger_config_name override key). -/
def operationSkipped (cfg : Config) (obj : DocObject) : Bool :=
  match obj.swaggerConfigName with
  | some c => decide (cfg.configName ≠ some c)
  | none => false

/-- The body of the get_operations loop for one method introspector:
the operation dict, the yaml_error note (whose append to the absent
notes key is the KeyError of the source), the default error response,
the success response and the declared response messages.  Returns the
operation and the explicitly discovered serializers. -/
def buildOperation (w : World) (cfg : Config) (mi : MethodIntrospector) :
    Except String (Operation × List String) := do
  let docParser := mi.docObject
  let pe := getOperationParameters w mi mi.httpMethod
  let operationSecurity := getYamlSecurityDefinition docParser
  let operation : Operation := {
    method := mi.httpMethod,
    description := mi.descriptionText,
    summary := mi.summaryText,
    operationId := docParser.operationId,
    produces := docParser.produces.getD cfg.produces,
    tags := docParser.tags,
    parameters := pe.1,
    security := operationSecurity }
  if docParser.yamlError.isSome then
    -- the source appends the parse-error note to operation['notes'],
    -- a key the operation dict does not have
    let _ ← dictKeyLookup (opDictKeys operationSecurity.isSome) "notes"
    pure ()
  let responseMessages : List (String × RespBody) := match cfg.defaultPayload with
    | some nd => [("default", { description := "error payload",
                                schema := some (.ref (defRef nd.1)) })]
    | none => []
  let cb ← getOperationSuccessResponse docParser mi
  let responseMessages := dictSet responseMessages cb.1 cb.2
  let responseMessages := dictUpdateAll responseMessages (getResponseMessages docParser)
  pure ({ operation with responses := responseMessages }, pe.2)

/-- DocumentationGenerator.get_operations over an endpoint's method
introspectors, also accumulating the explicitly discovered body
serializers the real generator adds to a shared set. -/
def getOperations (w : World) (cfg : Config) (mis : List MethodIntrospector) :
    Except String (List Operation × List String) :=
  (getMethodIntrospectors mis).foldlM (fun acc mi => do
      if operationSkipped cfg mi.docObject then pure acc
      else
        let oe ← buildOperation w cfg mi
        pure (acc.1 ++ [oe.1], acc.2 ++ oe.2))
    (([], []) : List Operation × List String)

/-- One path item: the operations keyed by lower-cased method, and the
path-level parameters taken from the first method introspector's path
template parameters (the global parameter enrichment of
fill_path_parameters is configuration driven and not modelled). -/
structure PathItem where
  operations : List (String × Operation)
  parameters : List Param
deriving DecidableEq, Repr

/-- DocumentationGenerator.get_path_item: none models the falsy return
for an endpoint without operations; the indexing of the first method
introspector only happens when an operation was built. -/
def getPathItem (w : World) (cfg : Config) (e : Endpoint) :
    Except String (Option PathItem × List String) := do
  let oe ← getOperations w cfg e.methods
  if oe.1.isEmpty then pure (none, oe.2)
  else
    match getMethodIntrospectors e.methods with
    | [] => .error "IndexError"
    | _ :: _ =>
      let operations := oe.1.foldl (fun acc op => dictSet acc (strToLower op.method) op) []
      pure (some { operations := operations, parameters := buildPathParameters e.path }, oe.2)

/-- Ascending insertion into a list sorted by first component. -/
def insertSortedByKey (kv : String × α) : List (String × α) → List (String × α)
  | [] => [kv]
  | kv2 :: rest =>
    if strLe kv.1 kv2.1 then kv :: kv2 :: rest else kv2 :: insertSortedByKey kv rest

/-- Sorting an association list by key, as sorted over dict items does
for distinct keys. -/
def sortPairsByKey (d : List (String × α)) : List (String × α) :=
  d.foldl (fun acc kv => insertSortedByKey kv acc) []

/-- DocumentationGenerator.get_paths: the endpoint's path is rewritten
with the base path stripped before introspection, falsy path items are
dropped and the mapping is sorted by path. -/
def getPaths (w : World) (cfg : Config) (endpoints : List Endpoint) :
    Except String (List (String × PathItem) × List String) := do
  let de ← endpoints.foldlM (fun acc e => do
      let path2 := extractBasePath e.path cfg.basePath
      let ie ← getPathItem w cfg { e with path := path2 }
      match ie.1 with
      | some item => pure (dictSet acc.1 path2 item, acc.2 ++ ie.2)
      | none => pure (acc.1, acc.2 ++ ie.2))
    (([], []) : List (String × PathItem) × List String)
  pure (sortPairsByKey de.1, de.2)

/-- DocumentationGenerator.get_serializer_set: the response serializers
and the extra (pytype) serializers of every method introspector of every
endpoint, as a set. -/
def getSerializerSet (endpoints : List Endpoint) : List String :=
  endpoints.foldl (fun acc e =>
    e.methods.foldl (fun acc2 mi =>
      let acc3 := match mi.responseSerializer with
        | some s => setAddStr acc2 s
        | none => acc2
      mi.extraSerializers.foldl setAddStr acc3) acc) []

/-- The generated document (the info, host, schemes and
securityDefinitions passthroughs of the configuration are omitted). -/
structure Document where
  swagger : String
  basePath : String
  paths : List (String × PathItem)
  definitions : List (String × Definition)
deriving DecidableEq, Repr

/-- DocumentationGenerator.get_root: registers the default payload
definition among the explicit response types, builds the paths (which
populates the explicitly discovered serializers) and then the
definitions; definition discovery running out of recursion depth is the
RecursionError that aborts the build. -/
def getRoot (w : World) (cfg : Config) (endpoints : List Endpoint) (fuel : Nat) :
    Except String Document := do
  let explicitResponseTypes := match cfg.defaultPayload with
    | some nd => [(nd.1, nd.2)]
    | none => []
  let pe ← getPaths w cfg endpoints
  match getDefinitions w (getSerializerSet endpoints) pe.2 explicitResponseTypes fuel with
  | none => .error "RecursionError"
  | some defs =>
    pure { swagger := "2.0", basePath := cfg.basePath, paths := pe.1, definitions := defs }

/- ===== config.py and views.py ===== -/

/-- A configuration value (settings hold booleans, strings and string
lists at the keys the core reads). -/
inductive CfgVal where
  | boolVal (b : Bool)
  | strVal (s : String)
  | listVal (l : List String)
deriving DecidableEq, Repr

/-- Python truthiness of a configuration value. -/
def cfgTruthy : CfgVal → Bool
  | .boolVal b => b
  | .strVal s => ! s.isEmpty
  | .listVal l => ! l.isEmpty

/-- SwaggerConfig.DEFAULT_SWAGGER_SETTINGS. -/
def DEFAULT_SWAGGER_SETTINGS : List (String × CfgVal) :=
  [("exclude_namespaces", .listVal []),
   ("exclude_module_paths", .listVal []),
   ("exclude_url_patterns", .listVal []),
   ("exclude_url_patterns_names", .listVal []),
   ("include_module_paths", .listVal []),
   ("requires_authentication", .boolVal false),
   ("requires_superuser", .boolVal false),
   ("base_path", .strVal "")]

/-- SwaggerConfig.get_config: a missing name (after defaulting to
the name default) raises; otherwise the global settings overlaid with
the named local settings. -/
def getConfig (globalSettings : List (String × CfgVal))
    (localSettings : List (String × List (String × CfgVal)))
    (configName : Option String) : Except String (List (String × CfgVal)) :=
  let name := configName.getD "default"
  let globalMerged := dictUpdateAll DEFAULT_SWAGGER_SETTINGS globalSettings
  match lookupStr localSettings name with
  | none => .error (name ++ " swagger settings not defined")
  | some localCfg => .ok (dictUpdateAll globalMerged localCfg)

/-- The requesting user, as the permission gate sees it. -/
structure UserInfo where
  isSuperuser : Bool := false
  isAuthenticated : Bool := false
deriving DecidableEq, Repr

/-- Swagger2JSONView.has_permission over the resolved configuration. -/
def hasPermission (config : List (String × CfgVal)) (user : UserInfo) : Bool :=
  if cfgTruthy ((lookupStr config "requires_superuser").getD (.boolVal false))
      ∧ ¬ user.isSuperuser then false
  else if cfgTruthy ((lookupStr config "requires_authentication").getD (.boolVal false))
      ∧ ¬ user.isAuthenticated then false
  else true

/-- Swagger2JSONView.get: check_permission resolves the configuration
(raising on an unknown name) and gates the user, and only then are the
endpoints collected and the document generated.  The URL collection and
generation pipeline is abstracted as the generate argument so that the
statement covers every generator. -/
def swagger2JSONViewGet (globalSettings : List (String × CfgVal))
    (localSettings : List (String × List (String × CfgVal)))
    (configName : Option String) (user : UserInfo)
    (generate : List (String × CfgVal) → Except String Document) :
    Except String Document := do
  let config ← getConfig globalSettings localSettings configName
  if ¬ hasPermission config user then .error "PermissionDenied"
  else generate config

/- ===== reference collection over the generated document ===== -/

/-- A serializer world with a reference cycle: A holds a nested B field
and B a nested A field. -/
def cycleWorld : World :=
  [("ASerializer", { fields := [("b", { nestedSerializer := some "BSerializer" })] }),
   ("BSerializer", { fields := [("a", { nestedSerializer := some "ASerializer" })] })]

/-- The sample Product serializer world: a body-marked serializer with a
string, a number and a boolean field. -/
def productWorld : World :=
  [("Product", { metaIn := some "body",
                 fields := [("name", { kind := .other, required := true }),
                            ("price", { kind := .floatField }),
                            ("in_stock", { kind := .booleanField })] })]

/-- A page-number paginator with a page and a size query parameter. -/
def productPaginator : Paginator :=
  { pageQueryParam := some "page", pageSizeQueryParam := some "size" }

/-- The list operation of the sample list endpoint. -/
def productListMi : MethodIntrospector :=
  { httpMethod := "GET", action := "list", responseSerializer := some "Product",
    paginationClass := some productPaginator }

/-- A minimal configuration. -/
def productConfig : Config := {}

/-- A PATCH introspector whose request serializer is the body-marked
Product serializer. -/
def patchMi : MethodIntrospector :=
  { httpMethod := "PATCH", requestSerializer := some "Product" }

/-- The body parameter the generator emits for the Product serializer. -/
def patchBodyParam : Param :=
  { name := some "Product", location := "body", schemaRef := some (defRef "Product") }

/-- A reflected query parameter named q, in build_query_parameters
shape. -/
def reflectedQ : Param :=
  { location := "query", name := some "q", description := some "filter query",
    type := some "string" }

/-- An introspector reflecting the single query parameter q. -/
def reflectedQMi : MethodIntrospector := { httpMethod := "GET", queryParams := [reflectedQ] }

/-- A PATCH introspector reflecting the single query parameter q. -/
def patchQMi : MethodIntrospector := { httpMethod := "PATCH", queryParams := [reflectedQ] }

/-- An override object declaring a global replace strategy and nothing
else. -/
def replaceObj : DocObject := { parametersStrategy := some (.strVal "replace") }

/-- The declared override for q, carrying a description. -/
def declaredQRaw : RawField :=
  { name := some "q", location := some "query", description := some "filter text" }

/-- An override object declaring only the q parameter override. -/
def mergeObj : DocObject := { parameters := [declaredQRaw] }

/-- An override object declaring q and an unmatched second parameter. -/
def mergeObjTwo : DocObject :=
  { parameters := [declaredQRaw,
                   { name := some "sort", location := some "query",
                     description := some "sort key" }] }

/-- The resolved q parameter carrying the override's description. -/
def resolvedQ : Param :=
  { name := some "q", location := "query", description := some "filter text",
    required := some false, type := some "string" }

/-- The resolved unmatched declared parameter. -/
def resolvedSort : Param :=
  { name := some "sort", location := "query", description := some "sort key",
    required := some false, type := some "string" }

/-- An introspector whose override block failed to parse. -/
def badYamlMi : MethodIntrospector :=
  { httpMethod := "GET", responseSerializer := some "Product",
    docObject := { yamlError := some "while parsing a block mapping" } }

/-- The endpoint carrying the malformed override block. -/
def badYamlEndpoint : Endpoint := { path := "/products", methods := [badYamlMi] }

/-- A DELETE introspector. -/
def destroyMi : MethodIntrospector :=
  { httpMethod := "DELETE", action := "destroy", responseSerializer := some "Product" }

/-- An update (PUT) introspector on a view with a paginator. -/
def updateMi : MethodIntrospector :=
  { httpMethod := "PUT", action := "update", responseSerializer := some "Product",
    paginationClass := some productPaginator }

/-- The enveloped body the generator emits for the update operation. -/
def envelopeUpdateBody : RespBody :=
  { description := "Successful operation",
    schema := some (mkPaginationEnvelope (.ref (defRef "Product"))) }

/-- An OPTIONS method introspector. -/
def optionsMi : MethodIntrospector :=
  { httpMethod := "OPTIONS", responseSerializer := some "Product" }

/-- An endpoint whose handler also allows OPTIONS. -/
def optionsEndpoint : Endpoint :=
  { path := "/products", methods := [optionsMi, productListMi] }

/-- The path item built for that endpoint (with a fallback value the
build never takes). -/
def optionsPathItem : PathItem :=
  match getPathItem productWorld productConfig optionsEndpoint with
  | .ok (some item, _) => item
  | _ => { operations := [], parameters := [] }

/-- The explicit serializers of that path item build. -/
def optionsPathItemEx : List String :=
  match getPathItem productWorld productConfig optionsEndpoint with
  | .ok (_, ex) => ex
  | .error _ => []

/-- The first operations entry of that path item. -/
def optionsFirstKv : String × Operation :=
  optionsPathItem.operations.headD
    ("", { method := "", description := "", summary := "", operationId := none,
           produces := [], tags := [], parameters := [] })

/-- Local settings defining only the default configuration. -/
def localSettingsExample : List (String × List (String × CfgVal)) :=
  [("default", [("basePath", .strVal "/api")])]

/-- An anonymous user. -/
def anonUser : UserInfo := {}

/-- A generator stub standing for the whole collection and generation
pipeline. -/
def demoGenerate : List (String × CfgVal) → Except String Document :=
  fun _ => .ok { swagger := "2.0", basePath := "", paths := [], definitions := [] }

lemma mem_dictSet [DecidableEq κ] {d : List (κ × α)} {k : κ} {v : α} {p : κ × α}
    (h : p ∈ dictSet d k v) : p = (k, v) ∨ p ∈ d := by
  unfold dictSet at h
  split at h
  · obtain ⟨q, hq, hmap⟩ := List.mem_map.mp h
    by_cases hk : q.1 = k
    · simp only [hk, if_pos] at hmap
      left; exact hmap.symm
    · simp only [hk, if_neg, not_false_iff] at hmap
      right; exact hmap ▸ hq
  · rcases List.mem_append.mp h with h1 | h1
    · right; exact h1
    · left; simpa using h1

lemma lookupStr_eq_some_mem {d : List (String × α)} {k : String} {v : α}
    (h : lookupStr d k = some v) : (k, v) ∈ d := by
  unfold lookupStr at h
  cases hf : d.find? (fun kv => decide (kv.1 = k)) with
  | none => rw [hf] at h; simp at h
  | some q =>
    rw [hf] at h
    simp at h
    have hmem : q ∈ d := List.mem_of_find?_eq_some hf
    have hk0 := List.find?_some hf
    have hk : q.1 = k := by simpa using hk0
    have : (k, v) = q := by
      rw [← hk, ← h, Prod.mk.eta]
    rw [this]
    exact hmem

lemma mem_keys_of_lookupStr_some {d : List (String × α)} {k : String} {v : α}
    (h : lookupStr d k = some v) : k ∈ d.map Prod.fst :=
  List.mem_map.mpr ⟨(k, v), lookupStr_eq_some_mem h, rfl⟩

/-- C4: a malformed override block does not leave the build running with
a note attached; the generator evaluates operation['notes'] on an
operation mapping that has no notes key, so the whole build aborts with
a KeyError instead of returning a document. -/
theorem yaml_error_raises_keyerror_aborting_build :
    getRoot productWorld productConfig [badYamlEndpoint] 5 = .error "KeyError: notes" := rfl

/-- C7: under the default merge strategy, a declared override named q
overwrites the reflected query parameter q in place (one resolved entry,
carrying the override's description), and a declared parameter with no
same-named reflected parameter is appended after the reflected ones. -/
theorem merge_strategy_round_trip :
    discoverParameters mergeObj reflectedQMi = [resolvedQ] ∧
    discoverParameters mergeObjTwo reflectedQMi = [resolvedQ, resolvedSort] :=
  ⟨rfl, rfl⟩

/-- C9: naming a configuration that is not among the defined local
settings makes the whole request fail with the configuration error,
before any generator runs; no partial document is returned. -/
theorem unknown_config_name_fails_request
    (globalSettings : List (String × CfgVal))
    (localSettings : List (String × List (String × CfgVal)))
    (name : String) (user : UserInfo)
    (generate : List (String × CfgVal) → Except String Document)
    (h : lookupStr localSettings name = none) :
    swagger2JSONViewGet globalSettings localSettings (some name) user generate =
      .error (name ++ " swagger settings not defined") := by
  unfold swagger2JSONViewGet getConfig
  simp only [Option.getD_some, h]
  rfl

/-- Witness for the unknown configuration claim at a concrete settings
table, user and generator. -/
theorem unknown_config_name_fails_request_witness :
    swagger2JSONViewGet [] localSettingsExample (some "missing") anonUser demoGenerate =
      .error ("missing swagger settings not defined") :=
  unknown_config_name_fails_request [] localSettingsExample "missing" anonUser demoGenerate rfl

/-- C8: the success response is 204 with description Deleted and no body
schema for DELETE, 201 for POST, and 200 for every other method. -/
theorem success_response_status_codes (obj : DocObject) (mi : MethodIntrospector)
    (code : String) (body : RespBody)
    (h : getOperationSuccessResponse obj mi = .ok (code, body)) :
    (strToLower mi.httpMethod = "delete" →
      code = "204" ∧ body.description = "Deleted" ∧ body.schema = none) ∧
    (strToLower mi.httpMethod ≠ "delete" →
      code = if strToLower mi.httpMethod = "post" then "201" else "200") := by
  unfold getOperationSuccessResponse at h
  by_cases hd : strToLower mi.httpMethod = "delete"
  · rw [if_pos hd] at h
    simp only [Except.ok.injEq, Prod.mk.injEq] at h
    refine ⟨fun _ => ?_, fun hn => absurd hd hn⟩
    exact ⟨h.1.symm, by rw [← h.2], by rw [← h.2]⟩
  · rw [if_neg hd] at h
    refine ⟨fun hdl => absurd hdl hd, fun _ => ?_⟩
    cases hrs : mi.responseSerializer with
    | none => rw [hrs] at h; simp at h
    | some nm =>
      rw [hrs] at h
      by_cases hp : strToLower mi.httpMethod = "post"
      · rw [if_pos hp]
        simp only [hp, if_true, reduceIte] at h
        split at h <;> (simp only [Except.ok.injEq, Prod.mk.injEq] at h; exact h.1.symm)
      · rw [if_neg hp]
        simp only [hp, if_false, reduceIte] at h
        split at h <;> (simp only [Except.ok.injEq, Prod.mk.injEq] at h; exact h.1.symm)

/-- Witness for the status code claim at the concrete DELETE
introspector. -/
theorem success_response_status_codes_witness :
    getOperationSuccessResponse {} destroyMi = .ok ("204", { description := "Deleted" }) ∧
    ("204" = "204" ∧ ({ description := "Deleted" } : RespBody).description = "Deleted" ∧
      ({ description := "Deleted" } : RespBody).schema = none) :=
  ⟨rfl, (success_response_status_codes {} destroyMi "204" { description := "Deleted" } rfl).1 rfl⟩

/-- C5 (amended): the success body carries the pagination envelope
exactly when the method is not DELETE and pagination is forced or the
success code is 200 and the view declares a pagination class; whether
the operation is a read-list operation plays no part. -/
theorem pagination_envelope_characterization (obj : DocObject) (mi : MethodIntrospector)
    (code : String) (body : RespBody)
    (h : getOperationSuccessResponse obj mi = .ok (code, body)) :
    isEnvelopeBody body = true ↔
      (strToLower mi.httpMethod ≠ "delete" ∧
        (obj.forcePagination = true ∨ (code = "200" ∧ mi.paginationClass.isSome = true))) := by
  unfold getOperationSuccessResponse at h
  by_cases hd : strToLower mi.httpMethod = "delete"
  · rw [if_pos hd] at h
    simp only [Except.ok.injEq, Prod.mk.injEq] at h
    constructor
    · intro henv
      rw [← h.2] at henv
      simp [isEnvelopeBody] at henv
    · intro hx
      exact absurd hd hx.1
  · rw [if_neg hd] at h
    cases hrs : mi.responseSerializer with
    | none => rw [hrs] at h; simp at h
    | some nm =>
      rw [hrs] at h
      dsimp only at h
      by_cases hcond : obj.forcePagination = true ∨
          ((if strToLower mi.httpMethod = "post" then "201" else "200") = "200" ∧
            mi.paginationClass.isSome = true)
      · rw [if_pos hcond] at h
        simp only [Except.ok.injEq, Prod.mk.injEq] at h
        constructor
        · intro _
          refine ⟨hd, ?_⟩
          rw [← h.1]
          exact hcond
        · intro _
          rw [← h.2]
          simp [isEnvelopeBody, isEnvelopeSchema, mkPaginationEnvelope]
      · rw [if_neg hcond] at h
        simp only [Except.ok.injEq, Prod.mk.injEq] at h
        constructor
        · intro henv
          rw [← h.2] at henv
          by_cases hobj : nm ≠ "object"
          · rw [if_pos hobj] at henv
            simp [isEnvelopeBody, isEnvelopeSchema] at henv
          · rw [if_neg hobj] at henv
            simp [isEnvelopeBody, isEnvelopeSchema] at henv
        · intro hx
          rw [← h.1] at hx
          exact absurd hx.2 hcond

/-- Counterexample to C5 as stated: a PUT update operation (not a
read-list operation, pagination not forced) still gets the pagination
envelope because the view has a pagination class and the code is 200. -/
theorem update_operation_gets_envelope_without_list_action :
    getOperationSuccessResponse {} updateMi = .ok ("200", envelopeUpdateBody) ∧
    isEnvelopeBody envelopeUpdateBody = true ∧
    updateMi.action = "update" ∧ updateMi.action ≠ "list" ∧
    ({} : DocObject).forcePagination = false :=
  ⟨rfl, rfl, rfl, by decide, rfl⟩

/-- Witness for the envelope characterization at the concrete list
operation. -/
theorem pagination_envelope_characterization_witness :
    isEnvelopeBody envelopeUpdateBody = true ↔
      (strToLower productListMi.httpMethod ≠ "delete" ∧
        (({} : DocObject).forcePagination = true ∨
          ("200" = "200" ∧ productListMi.paginationClass.isSome = true))) :=
  pagination_envelope_characterization {} productListMi "200" envelopeUpdateBody rfl

/-- C2 (amended): on a PATCH operation every parameter produced by the
docstring and reflection resolution pass whose location is not path has
required false; the body parameter prepended from the request serializer
is outside this pass (see the counterexample). -/
theorem patch_discovered_params_not_required (obj : DocObject) (mi : MethodIntrospector)
    (h : mi.httpMethod = "PATCH") :
    ∀ p ∈ discoverParameters obj mi, p.location ≠ "path" → p.required = some false := by
  unfold discoverParameters
  rw [h, if_pos rfl]
  intro p hp hloc
  obtain ⟨q, hq, hpe⟩ := List.mem_map.mp hp
  by_cases hql : q.location = "path"
  · rw [if_pos hql] at hpe
    rw [← hpe] at hloc
    exact absurd hql hloc
  · rw [if_neg hql] at hpe
    rw [← hpe]

/-- Counterexample to C2 as stated: the body parameter a PATCH operation
derives from its body-marked request serializer carries no required key
at all (none), not required false. -/
theorem patch_body_param_keeps_no_required_key :
    (getOperationParameters productWorld patchMi "PATCH").1 = [patchBodyParam] ∧
    patchMi.httpMethod = "PATCH" ∧ patchBodyParam.location ≠ "path" ∧
    patchBodyParam.required ≠ some false := by
  refine ⟨by decide, rfl, by decide, by decide⟩

/-- Witness for the PATCH forcing at a concrete reflected query
parameter. -/
theorem patch_discovered_params_not_required_witness :
    patchQMi.httpMethod = "PATCH" ∧
    ({ reflectedQ with required := some false } : Param) ∈ discoverParameters {} patchQMi ∧
    ({ reflectedQ with required := some false } : Param).required = some false :=
  ⟨rfl, by decide,
    patch_discovered_params_not_required {} patchQMi rfl _ (by decide) (by decide)⟩

/-- C6 (amended): under the replace strategy the declared parameters of
a location replace the reflected ones only when the declared list for
that location is non-empty; an empty declared list keeps the reflected
parameters (the Python or-fallback). -/
theorem replace_strategy_characterization (obj : DocObject) (pt : String)
    (mps dps : List Param)
    (h : getParametersStrategy obj (some pt) = "replace") :
    (filterParams dps pt ≠ [] → applyStrategy obj pt mps dps = filterParams dps pt) ∧
    (filterParams dps pt = [] → applyStrategy obj pt mps dps = filterParams mps pt) := by
  unfold applyStrategy
  rw [h, if_pos rfl]
  constructor
  · intro hne
    rw [if_neg (by simpa [List.isEmpty_iff] using hne)]
  · intro heq
    rw [if_pos (by simpa [List.isEmpty_iff] using heq)]

/-- Counterexample to C6 as stated: with a global replace strategy and
no declared parameters, the resolved list keeps the reflected query
parameter instead of dropping it. -/
theorem replace_with_empty_declared_keeps_reflected :
    discoverParameters replaceObj reflectedQMi = [reflectedQ] ∧
    discoverParameters replaceObj reflectedQMi ≠ [] :=
  ⟨by decide, by decide⟩

/-- Witness for the replace characterization at a concrete non-empty
declared list. -/
theorem replace_strategy_characterization_witness :
    applyStrategy replaceObj "query" [] (getYamlParameters [declaredQRaw]) =
      filterParams (getYamlParameters [declaredQRaw]) "query" :=
  (replace_strategy_characterization replaceObj "query" [] (getYamlParameters [declaredQRaw])
    rfl).1 (by decide)

/-- The KeyError raised by looking up the notes key of the operation
dict. -/
lemma opDictKeys_no_notes (b : Bool) :
    dictKeyLookup (opDictKeys b) "notes" = .error ("KeyError: notes") := by
  cases b <;> rfl

/-- Elimination of a successful buildOperation run: the success response
succeeded, the override block parsed, and the operation record and the
explicit serializers are exactly as assembled. -/
lemma buildOperation_ok_elim (w : World) (cfg : Config) (mi : MethodIntrospector)
    (op : Operation) (ex : List String) (h : buildOperation w cfg mi = .ok (op, ex)) :
    ∃ cb, getOperationSuccessResponse mi.docObject mi = .ok cb ∧
      op = { method := mi.httpMethod, description := mi.descriptionText,
             summary := mi.summaryText, operationId := mi.docObject.operationId,
             produces := mi.docObject.produces.getD cfg.produces, tags := mi.docObject.tags,
             parameters := (getOperationParameters w mi mi.httpMethod).1,
             security := getYamlSecurityDefinition mi.docObject,
             responses := dictUpdateAll (dictSet (match cfg.defaultPayload with
               | some nd => [("default", { description := "error payload",
                                           schema := some (.ref (defRef nd.1)) })]
               | none => []) cb.1 cb.2) (getResponseMessages mi.docObject) } ∧
      ex = (getOperationParameters w mi mi.httpMethod).2 ∧
      mi.docObject.yamlError = none := by
  unfold buildOperation at h
  by_cases hye : mi.docObject.yamlError.isSome
  · simp only [hye, if_true, opDictKeys_no_notes] at h
    exact absurd h (by simp [Bind.bind, Except.bind, Pure.pure, Except.pure])
  · simp only [hye, if_false, Bool.false_eq_true, reduceIte] at h
    cases hcb : getOperationSuccessResponse mi.docObject mi with
    | error e =>
      rw [hcb] at h
      exact absurd h (by simp [Bind.bind, Except.bind, Pure.pure, Except.pure])
    | ok cb =>
      rw [hcb] at h
      refine ⟨cb, rfl, ?_⟩
      simp only [Bind.bind, Except.bind, Pure.pure, Except.pure, Except.ok.injEq,
        Prod.mk.injEq] at h
      exact ⟨h.1.symm, h.2.symm, Option.not_isSome_iff_eq_none.mp hye⟩

/-- What the operations fold of get_operations guarantees about its
result: every built operation comes from one non-skipped method
introspector of the list, and the explicit serializers are exactly those
the built operations contributed. -/
lemma opsFold_spec (w : World) (cfg : Config) :
    ∀ (l : List MethodIntrospector) (acc r : List Operation × List String),
      (l.foldlM (fun acc mi => do
          if operationSkipped cfg mi.docObject then pure acc
          else
            let oe ← buildOperation w cfg mi
            pure (acc.1 ++ [oe.1], acc.2 ++ oe.2)) acc) = .ok r →
      (∀ n ∈ acc.2, n ∈ r.2) ∧
      (∀ op ∈ r.1, op ∈ acc.1 ∨ ∃ mi ∈ l, ∃ exi, buildOperation w cfg mi = .ok (op, exi) ∧
        ∀ n ∈ exi, n ∈ r.2) ∧
      (∀ n ∈ r.2, n ∈ acc.2 ∨ ∃ mi ∈ l, ∃ op2 exi,
        buildOperation w cfg mi = .ok (op2, exi) ∧ n ∈ exi) := by
  intro l
  induction l with
  | nil =>
    intro acc r h
    simp only [List.foldlM_nil] at h
    simp only [Pure.pure, Except.pure, Except.ok.injEq] at h
    subst h
    exact ⟨fun n hn => hn, fun op hop => Or.inl hop, fun n hn => Or.inl hn⟩
  | cons mi l ih =>
    intro acc r h
    rw [List.foldlM_cons] at h
    by_cases hskip : operationSkipped cfg mi.docObject
    · simp only [hskip, if_true, reduceIte, pure_bind] at h
      obtain ⟨c1, c2, c3⟩ := ih acc r h
      refine ⟨c1, ?_, ?_⟩
      · intro op hop
        rcases c2 op hop with h3 | ⟨mi2, hmi2, rest⟩
        · exact Or.inl h3
        · exact Or.inr ⟨mi2, List.mem_cons_of_mem _ hmi2, rest⟩
      · intro n hn
        rcases c3 n hn with h3 | ⟨mi2, hmi2, rest⟩
        · exact Or.inl h3
        · exact Or.inr ⟨mi2, List.mem_cons_of_mem _ hmi2, rest⟩
    · simp only [hskip, if_false, Bool.false_eq_true, reduceIte] at h
      cases hbo : buildOperation w cfg mi with
      | error e =>
        rw [hbo] at h
        exact absurd h (by simp [Bind.bind, Except.bind])
      | ok oe =>
        rw [hbo] at h
        simp only [Bind.bind, Except.bind, Pure.pure, Except.pure] at h
        obtain ⟨c1, c2, c3⟩ := ih (acc.1 ++ [oe.1], acc.2 ++ oe.2) r h
        refine ⟨?_, ?_, ?_⟩
        · intro n hn
          exact c1 n (by simp [hn])
        · intro op hop
          rcases c2 op hop with h3 | ⟨mi2, hmi2, rest⟩
          · rcases List.mem_append.mp h3 with h4 | h4
            · exact Or.inl h4
            · refine Or.inr ⟨mi, List.mem_cons_self _ _, oe.2, ?_, ?_⟩
              · rw [← Prod.mk.eta (p := oe)] at hbo
                rw [hbo]
                simp only [Except.ok.injEq, Prod.mk.injEq, and_true]
                exact (List.mem_singleton.mp h4).symm
              · intro n hn
                exact c1 n (by simp [hn])
          · exact Or.inr ⟨mi2, List.mem_cons_of_mem _ hmi2, rest⟩
        · intro n hn
          rcases c3 n hn with h3 | ⟨mi2, hmi2, rest⟩
          · rcases List.mem_append.mp h3 with h4 | h4
            · exact Or.inl h4
            · exact Or.inr ⟨mi, List.mem_cons_self _ _, oe.1, oe.2,
                by rw [← Prod.mk.eta (p := oe)] at hbo; exact hbo, h4⟩
          · exact Or.inr ⟨mi2, List.mem_cons_of_mem _ hmi2, rest⟩

/-- Specialization of the fold guarantee to get_operations. -/
lemma getOperations_spec (w : World) (cfg : Config) (mis : List MethodIntrospector)
    (ops : List Operation) (ex : List String)
    (h : getOperations w cfg mis = .ok (ops, ex)) :
    (∀ op ∈ ops, ∃ mi ∈ getMethodIntrospectors mis, ∃ exi,
        buildOperation w cfg mi = .ok (op, exi) ∧ ∀ n ∈ exi, n ∈ ex) ∧
    (∀ n ∈ ex, ∃ mi ∈ getMethodIntrospectors mis, ∃ op2 exi,
        buildOperation w cfg mi = .ok (op2, exi) ∧ n ∈ exi) := by
  unfold getOperations at h
  obtain ⟨_, c2, c3⟩ := opsFold_spec w cfg (getMethodIntrospectors mis) ([], []) (ops, ex) h
  constructor
  · intro op hop
    rcases c2 op hop with h3 | h3
    · simp at h3
    · exact h3
  · intro n hn
    rcases c3 n hn with h3 | h3
    · simp at h3
    · exact h3

/-- Membership in the path item's method-keyed operations dict. -/
lemma mem_opsDict : ∀ (l : List Operation) (acc : List (String × Operation))
    (p : String × Operation),
    p ∈ l.foldl (fun a op => dictSet a (strToLower op.method) op) acc →
    p ∈ acc ∨ ∃ op ∈ l, p = (strToLower op.method, op) := by
  intro l
  induction l with
  | nil => intro acc p h; exact Or.inl h
  | cons op l ih =>
    intro acc p h
    rw [List.foldl_cons] at h
    rcases ih _ p h with h1 | ⟨op2, hop2, h2⟩
    · rcases mem_dictSet h1 with h2 | h2
      · exact Or.inr ⟨op, List.mem_cons_self _ _, h2⟩
      · exact Or.inl h2
    · exact Or.inr ⟨op2, List.mem_cons_of_mem _ hop2, h2⟩

/-- C10: no OPTIONS operation is ever emitted into a path item; the
OPTIONS method introspectors are filtered out before assembly. -/
theorem options_operations_never_emitted (w : World) (cfg : Config) (e : Endpoint)
    (item : PathItem) (ex : List String)
    (h : getPathItem w cfg e = .ok (some item, ex)) :
    ∀ kv ∈ item.operations, kv.2.method ≠ "OPTIONS" := by
  unfold getPathItem at h
  cases hops : getOperations w cfg e.methods with
  | error e2 =>
    rw [hops] at h
    exact absurd h (by simp [Bind.bind, Except.bind])
  | ok oe =>
    rw [hops] at h
    simp only [Bind.bind, Except.bind] at h
    by_cases hemp : oe.1.isEmpty
    · rw [if_pos hemp] at h
      simp [Pure.pure, Except.pure] at h
    · rw [if_neg hemp] at h
      cases hmis : getMethodIntrospectors e.methods with
      | nil => rw [hmis] at h; simp at h
      | cons m0 rest =>
        rw [hmis] at h
        simp only [Pure.pure, Except.pure, Except.ok.injEq, Prod.mk.injEq,
          Option.some.injEq] at h
        intro kv hkv
        rw [← h.1] at hkv
        simp only at hkv
        rcases mem_opsDict oe.1 [] kv hkv with h2 | ⟨op, hop, h3⟩
        · simp at h2
        · have hspec := getOperations_spec w cfg e.methods oe.1 oe.2 (by
            rw [Prod.mk.eta]
            exact hops)
          rcases hspec.1 op hop with ⟨mi, hmi, exi, hbo, _⟩
          have hmethod : op.method = mi.httpMethod := by
            obtain ⟨cb, _, hop_eq, _, _⟩ := buildOperation_ok_elim w cfg mi op exi hbo
            rw [hop_eq]
          have hne : mi.httpMethod ≠ "OPTIONS" := by
            unfold getMethodIntrospectors at hmi
            have h5 := (List.mem_filter.mp hmi).2
            simpa using h5
          rw [h3]
          simpa [hmethod] using hne

/-- Witness for the OPTIONS filtering at a concrete endpoint allowing
OPTIONS and GET. -/
theorem options_operations_never_emitted_witness :
    getPathItem productWorld productConfig optionsEndpoint =
      .ok (some optionsPathItem, optionsPathItemEx) ∧
    optionsFirstKv.2.method ≠ "OPTIONS" :=
  ⟨rfl, options_operations_never_emitted productWorld productConfig optionsEndpoint
    optionsPathItem optionsPathItemEx rfl optionsFirstKv (by decide)⟩

/-- A fresh field instance is never in a set whose stamps are all
older: the guard of find_field_serializers never fires. -/
lemma contains_false_of_bound {found : List Inst} {ctr : Nat}
    (hb : ∀ i ∈ found, i.2 < ctr) (t : String) : found.contains (t, ctr) = false := by
  by_contra h
  simp only [Bool.not_eq_false, List.contains_eq_any_beq, List.any_eq_true] at h
  obtain ⟨i, hi, hbeq⟩ := h
  have heq : i = (t, ctr) := (beq_iff_eq.mp hbeq).symm
  subst heq
  exact absurd (hb _ hi) (by simp)

/-- On the two-element cycle, every recursion depth is exhausted: the
discovery of either serializer never returns, whatever the found set
(with older stamps) and counter. -/
lemma cycle_ffs_aux : ∀ fuel found ctr, (∀ i ∈ found, i.2 < ctr) →
    findFieldSerializers cycleWorld fuel ["ASerializer"] found ctr = none ∧
    findFieldSerializers cycleWorld fuel ["BSerializer"] found ctr = none := by
  intro fuel
  induction fuel with
  | zero => intro found ctr hb; exact ⟨rfl, rfl⟩
  | succ f ih =>
    intro found ctr hb
    have key : ∀ t t2 : String, nestedFieldsOf cycleWorld t = [t2] →
        (∀ found2 ctr2, (∀ i ∈ found2, i.2 < ctr2) →
          findFieldSerializers cycleWorld f [t2] found2 ctr2 = none) →
        findFieldSerializers cycleWorld (f + 1) [t] found ctr = none := by
      intro t t2 hnf hrec
      show ffsListF _ _ _ _ _ _ = none
      rw [ffsListF, hnf, ffsTargetsF]
      simp only [contains_false_of_bound hb]
      have hnone : findFieldSerializers cycleWorld f [t2] (setAddInst [] (t2, ctr)) (ctr + 1) = none := by
        apply hrec
        intro i hi
        simp [setAddInst] at hi
        subst hi
        omega
      simp only [Bool.false_eq_true, reduceIte]
      rw [hnone]
    exact ⟨key "ASerializer" "BSerializer" (by decide)
             (fun found2 ctr2 hb2 => (ih found2 ctr2 hb2).2),
           key "BSerializer" "ASerializer" (by decide)
             (fun found2 ctr2 hb2 => (ih found2 ctr2 hb2).1)⟩

/-- C3 (code bug evidence): on a cyclic DTO graph the field-serializer
discovery exhausts every recursion depth budget (the Python build dies
with a RecursionError), so the definitions map is never produced; the
identity-based found-serializers guard never fires because every
get_fields call yields fresh field instances. -/
theorem cyclic_serializer_discovery_never_terminates :
    ∀ fuel, findFieldSerializers cycleWorld fuel ["ASerializer"] [] 0 = none ∧
      getDefinitions cycleWorld ["ASerializer"] [] [] fuel = none := by
  intro fuel
  have h1 := (cycle_ffs_aux fuel [] 0 (by simp)).1
  refine ⟨h1, ?_⟩
  unfold getDefinitions
  simp only [List.foldl_nil]
  rw [h1]

end MyStore
